import Mathlib

/-!
Verification of the machi-ya report bot's core pipeline: the pre-filter
(`should_fetch_project_data`), the fixed-format date validation
(`is_valid_date_string`), the metrics fetcher (`get_campfire_data`), the
concurrent batch harvester (`get_campfire_data_batch`,
`process_production_project_data_fast`) and the adaptive rate limiter
(`AdaptiveRateLimiter`).

The embedding is shallow: each Python function of `utils.py` /
`main_oauth_production.py` becomes a pure Lean function.  Side effects are
made explicit:

* the network layer is a parameter `net : String → Except String Page`
  (a page with the two optional scraped elements, or the message of a
  raised request exception);
* the thread pool's nondeterministic completion order is a parameter
  `sched : List Nat`, the order (by submission index) in which the
  submitted futures complete; a real run has `sched` a permutation of
  `List.range n`;
* the rate limiter's counter state is passed explicitly, and the limiter
  interactions of one fetch are recorded as an event trace.

Machine integers do not occur (Python's ints are unbounded); the limiter's
float delay is modelled over `ℝ`.
-/

namespace MachiYa

/-! ## Spreadsheet cells

Rows arrive from the Sheets API as ragged lists of strings.  Every access
in the source is guarded: `row_data[i] if len(row_data) > i else ""`. -/

/-- Guarded cell access `row_data[i] if len(row_data) > i else ""` used
throughout `utils.py` and `main_oauth_production.py`. -/
def getCell (row_data : List String) (i : Nat) : String :=
  row_data.getD i ""

/-! ## Date parsing: `datetime.datetime.strptime(s, "%Y/%m/%d")`

CPython's `_strptime` compiles the format to a regular expression:
`%Y` is exactly four digits, `%m` is `1[0-2]|0[1-9]|[1-9]`, `%d` is
`3[01]|[12]\d|0[1-9]|[1-9]`, the `/` are literal, and the whole string
must be consumed.  The matched fields are then passed to the `datetime`
constructor, which raises `ValueError` when the day is out of range for
the month (proleptic Gregorian calendar) or the year is below `MINYEAR = 1`.
`is_valid_date_string` catches exactly that `ValueError`. -/

/-- Split a character list at every `'/'` (each field pattern of the
format is slash-free, so matching the compiled regex is the same as
splitting at the literal separators and matching each field). -/
def splitSlash : List Char → List (List Char)
  | [] => [[]]
  | c :: cs =>
    match splitSlash cs with
    | [] => []
    | p :: ps => if c = '/' then [] :: p :: ps else (c :: p) :: ps

/-- Numeric value of a digit-character list (the lists fed to it are
all-digit by construction). -/
def natOfDigits (cs : List Char) : Nat :=
  cs.foldl (fun n c => n * 10 + (c.toNat - 48)) 0

/-- Field matched by `%Y`: exactly four digits. -/
def yearField : List Char → Option Nat
  | [a, b, c, d] =>
      if a.isDigit ∧ b.isDigit ∧ c.isDigit ∧ d.isDigit then some (natOfDigits [a, b, c, d])
      else none
  | _ => none

/-- Field matched by `%m`: the regex `1[0-2]|0[1-9]|[1-9]`. -/
def monthField : List Char → Option Nat
  | [c] => if '1' ≤ c ∧ c ≤ '9' then some (c.toNat - 48) else none
  | [c₁, c₂] =>
      if c₁ = '0' ∧ '1' ≤ c₂ ∧ c₂ ≤ '9' then some (c₂.toNat - 48)
      else if c₁ = '1' ∧ '0' ≤ c₂ ∧ c₂ ≤ '2' then some (10 + (c₂.toNat - 48))
      else none
  | _ => none

/-- Field matched by `%d`: the regex `3[01]|[12]\d|0[1-9]|[1-9]`. -/
def dayField : List Char → Option Nat
  | [c] => if '1' ≤ c ∧ c ≤ '9' then some (c.toNat - 48) else none
  | [c₁, c₂] =>
      if c₁ = '3' ∧ ('0' ≤ c₂ ∧ c₂ ≤ '1') then some (30 + (c₂.toNat - 48))
      else if (c₁ = '1' ∨ c₁ = '2') ∧ c₂.isDigit then some ((c₁.toNat - 48) * 10 + (c₂.toNat - 48))
      else if c₁ = '0' ∧ '1' ≤ c₂ ∧ c₂ ≤ '9' then some (c₂.toNat - 48)
      else none
  | _ => none

/-- Proleptic Gregorian leap-year rule used by `datetime`. -/
def isLeapYear (y : Nat) : Bool :=
  y % 4 == 0 && (y % 100 != 0 || y % 400 == 0)

/-- Days in a month of the proleptic Gregorian calendar. -/
def daysInMonth (y m : Nat) : Nat :=
  if m = 2 then (if isLeapYear y then 29 else 28)
  else if m = 4 ∨ m = 6 ∨ m = 9 ∨ m = 11 then 30
  else 31

/-- Calendar date as `datetime.date` holds it. -/
structure Date where
  year : Nat
  month : Nat
  day : Nat
deriving DecidableEq, Repr

/-- Result of `datetime.datetime.strptime(s, "%Y/%m/%d").date()`: `some`
date on success, `none` when strptime or the datetime constructor raises
`ValueError`. -/
def strptimeYMD (s : String) : Option Date :=
  match splitSlash s.data with
  | [ys, ms, ds] =>
      match yearField ys, monthField ms, dayField ds with
      | some y, some m, some d =>
          if 1 ≤ y ∧ d ≤ daysInMonth y m then some ⟨y, m, d⟩ else none
      | _, _, _ => none
  | _ => none

/-- Embedding of `utils.is_valid_date_string` at its default format
`"%Y/%m/%d"`: true exactly when `strptime` does not raise. -/
def is_valid_date_string (date_str : String) : Bool :=
  (strptimeYMD date_str).isSome

/-- Comparison `date₁ <= date₂` of `datetime.date`: lexicographic on
(year, month, day). -/
def dateLe (a b : Date) : Bool :=
  Nat.blt a.year b.year ||
    (Nat.beq a.year b.year &&
      (Nat.blt a.month b.month || (Nat.beq a.month b.month && Nat.ble a.day b.day)))

/-! ## Pre-filter -/

/-- Embedding of `utils.should_fetch_project_data`: project id present,
end-date field present, end date parses under `%Y/%m/%d`, parsed end date
on or after the target date. -/
def should_fetch_project_data (row_data : List String) (target_date : Date) : Bool :=
  let pj_id := getCell row_data 0
  if pj_id = "" then false
  else
    let end_date_str := getCell row_data 5
    if end_date_str = "" then false
    else if ¬ is_valid_date_string end_date_str then false
    else
      match strptimeYMD end_date_str with
      | some project_end_date => dateLe target_date project_end_date
      | none => false

/-! ## Adaptive rate limiter: counter state -/

/-- Counter state of `utils.AdaptiveRateLimiter` (`error_count`,
`success_count`; `last_request_time` only shifts real-time sleeping and is
not part of the counter model). -/
structure RateLimiterState where
  error_count : Nat
  success_count : Nat
deriving DecidableEq, Repr

/-- Embedding of `AdaptiveRateLimiter.record_success`: increment
`success_count`; on every 5th cumulative success with a positive
`error_count`, set `error_count = max(0, error_count - 1)`. -/
def RateLimiterState.record_success (s : RateLimiterState) : RateLimiterState :=
  let sc := s.success_count + 1
  if sc % 5 = 0 ∧ s.error_count > 0 then
    { error_count := s.error_count - 1, success_count := sc }
  else
    { s with success_count := sc }

/-- Embedding of `AdaptiveRateLimiter.record_error`: increment
`error_count` unconditionally. -/
def RateLimiterState.record_error (s : RateLimiterState) : RateLimiterState :=
  { s with error_count := s.error_count + 1 }

/-- Error rate computed inside `AdaptiveRateLimiter.wait`:
`error_count / max(1, error_count + success_count)` (true division, so the
value is an exact rational). -/
def errorRate (s : RateLimiterState) : ℚ :=
  (s.error_count : ℚ) / (max 1 (s.error_count + s.success_count) : Nat)

/-- Dynamic delay computed inside `AdaptiveRateLimiter.wait`:
`min(base_delay * 1.5 ** (error_rate * 10), max_delay)`, modelled over the
reals (the float exponentiation is real exponentiation). -/
noncomputable def dynamicDelay (base_delay max_delay : ℝ) (s : RateLimiterState) : ℝ :=
  min (base_delay * (1.5 : ℝ) ^ ((errorRate s * 10 : ℚ) : ℝ)) max_delay

/-! ## Metrics fetcher: `utils.get_campfire_data`

The network layer is abstracted as `net : String → Except String Page`:
for a project id it yields the fetched page (the optional
`p.backer-amount` and `p.backer` element texts found by BeautifulSoup) or
the message of a raised `requests` exception.  The limiter interactions of
one call are recorded as an event trace. -/

/-- Scraped page: text of the `backer-amount` element and of the `backer`
element, each absent when `soup.find` returns `None`. -/
structure Page where
  amountElem : Option String
  countElem : Option String
deriving DecidableEq, Repr

/-- Python `re.sub(r"[^\d]", "", text.strip())`: keep only ASCII digits
(the strip only removes characters the filter drops anyway). -/
def cleanDigits (text : String) : String :=
  ⟨text.data.filter Char.isDigit⟩

/-- Value taken from an optional scraped element:
`re.sub(r"[^\d]", "", elem.text.strip()) if elem else "取得不可"`. -/
def scrapeField : Option String → String
  | some text => cleanDigits text
  | none => "取得不可"

/-- Observable interactions of one `get_campfire_data` call with the
global rate limiter and the HTTP session. -/
inductive LimiterEvent where
  | wait
  | httpGet
  | recordSuccess
  | recordError
deriving DecidableEq, Repr

/-- Embedding of `utils.get_campfire_data`: the event trace of the call
and its outcome — `(amount, count)` on success, the `ScrapingError`
message when the request raises.  Every limiter interaction (`wait`
before the request, `record_success`/`record_error` after) is guarded by
`use_rate_limit`. -/
def get_campfire_data (pj_id : String) (use_rate_limit : Bool)
    (net : String → Except String Page) :
    List LimiterEvent × Except String (String × String) :=
  let pre := if use_rate_limit then [LimiterEvent.wait] else []
  match net pj_id with
  | Except.error e =>
      (pre ++ [LimiterEvent.httpGet] ++
        (if use_rate_limit then [LimiterEvent.recordError] else []),
       Except.error ("プロジェクト " ++ pj_id ++ " のデータ取得でネットワークエラー: " ++ e))
  | Except.ok page =>
      (pre ++ [LimiterEvent.httpGet] ++
        (if use_rate_limit then [LimiterEvent.recordSuccess] else []),
       Except.ok (scrapeField page.amountElem, scrapeField page.countElem))

/-! ## Concurrent batch fetch: `utils.get_campfire_data_batch`

Each submitted future runs `fetch_single_project`; the `as_completed`
loop collects the `(pj_id, data)` results in completion order — modelled
by the schedule `sched`, the submission indices in completion order —
then `dict(results)` / `result_dict.get(pj_id, ("取得不可", "取得不可"))`
restores the input order. -/

/-- Embedding of the worker closure `fetch_single_project` inside
`get_campfire_data_batch`: any exception of `get_campfire_data` is caught
at this boundary and turned into an error-valued result tuple. -/
def fetch_single_project (net : String → Except String Page) (pj_id : String) :
    String × (String × String) :=
  match (get_campfire_data pj_id true net).2 with
  | Except.ok data => (pj_id, data)
  | Except.error e => (pj_id, ("エラー: " ++ e, "エラー"))

/-- Reorder a list of task results into completion order: `sched` lists
submission indices in the order the futures complete. -/
def applySchedule (sched : List Nat) (tasks : List α) : List α :=
  sched.filterMap (fun i => tasks[i]?)

/-- Python `dict(results)` built from an association list, then
`.get(k, d)`: the value of the last pair with key `k`, else `d`. -/
def lastAssoc (results : List (String × β)) (k : String) (d : β) : β :=
  ((results.reverse.find? (fun p => p.1 == k)).map Prod.snd).getD d

/-- Embedding of `utils.get_campfire_data_batch`: run every worker,
collect `(pj_id, data)` pairs in completion order `sched`, then rebuild
the list in input order through `dict(results).get(pj_id, ("取得不可",
"取得不可"))`. -/
def get_campfire_data_batch (net : String → Except String Page) (sched : List Nat)
    (project_ids : List String) : List (String × (String × String)) :=
  let results := applySchedule sched (project_ids.map (fetch_single_project net))
  project_ids.map (fun pj_id => (pj_id, lastAssoc results pj_id ("取得不可", "取得不可")))

/-- Modelled from the spec: `get_campfire_data_batch_with_progress` is
imported and called by `main_oauth_production.py` but its definition is
not among the repository's files.  Per the spec's harvester contract it
performs the same bounded-concurrency fetch and order restoration as
`get_campfire_data_batch`, additionally reporting progress; the progress
callbacks do not affect the returned data, so the data semantics is that
of `get_campfire_data_batch`. -/
def get_campfire_data_batch_with_progress (net : String → Except String Page)
    (sched : List Nat) (project_ids : List String) : List (String × (String × String)) :=
  get_campfire_data_batch net sched project_ids

/-! ## Fast production harvester:
`main_oauth_production.process_production_project_data_fast` -/

/-- One output row: `(行番号, プロジェクトID, 金額, 人数, ステータス)`. -/
abbrev RowResult := Nat × String × String × String × String

/-- Skip result assigned in Phase 1 of
`process_production_project_data_fast` (lines 52–60): the detailed-reason
cascade re-checking the pre-filter's conditions in order. -/
def skipRowResult (i : Nat) (row_data : List String) : RowResult :=
  let pj_id := getCell row_data 0
  if pj_id = "" then (i, "IDなし", "-", "-", "スキップ")
  else if getCell row_data 5 = "" then (i, pj_id, "-", "-", "終了日なし")
  else if ¬ is_valid_date_string (getCell row_data 5) then (i, pj_id, "-", "-", "日付解析エラー")
  else (i, pj_id, "-", "-", "対象外")

/-- Phase 1 of `process_production_project_data_fast`: enumerate rows from
`start_row`; ineligible rows get their terminal skip result, eligible rows
are collected as `(row_index, pj_id)` fetch targets, both in row order. -/
def phase1 : List (List String) → Nat → Date → List RowResult × List (Nat × String)
  | [], _, _ => ([], [])
  | row_data :: rest, i, target_date =>
    let (results, fetch_targets) := phase1 rest (i + 1) target_date
    if should_fetch_project_data row_data target_date then
      (results, (i, getCell row_data 0) :: fetch_targets)
    else
      (skipRowResult i row_data :: results, fetch_targets)

/-- Python `"エラー" in amount`: substring containment. -/
def pyContains (sub s : String) : Bool :=
  decide (sub.data <:+: s.data)

/-- Merge step of `process_production_project_data_fast` (lines 81–85):
one fetch target zipped with its batch result becomes a `取得エラー` row
when the amount carries an error marker or the unavailable sentinel, and a
`取得OK` row otherwise. -/
def mergeFetchRow : (Nat × String) × (String × (String × String)) → RowResult
  | ((row_index, pj_id), (_, (amount, count))) =>
    if pyContains "エラー" amount || amount == "取得不可" then
      (row_index, pj_id, "-", "-", "取得エラー")
    else
      (row_index, pj_id, amount, count, "取得OK")

/-- Comparator of the final `results.sort(key=lambda x: x[0])`. -/
def rowLe (a b : RowResult) : Bool :=
  Nat.ble a.1 b.1

/-- Embedding of `process_production_project_data_fast`: Phase 1
pre-filtering, Phase 2 concurrent fetch of the eligible targets (with the
completion schedule `sched`), merge, and the final sort by row index.
Progress callbacks do not affect the returned data and are omitted. -/
def process_production_project_data_fast (net : String → Except String Page)
    (sched : List Nat) (rows : List (List String)) (start_row : Nat)
    (target_date : Date) : List RowResult :=
  let (results, fetch_targets) := phase1 rows start_row target_date
  let project_ids := fetch_targets.map Prod.snd
  let fetch_results := get_campfire_data_batch_with_progress net sched project_ids
  let merged := (fetch_targets.zip fetch_results).map mergeFetchRow
  (results ++ merged).mergeSort rowLe

/-- Deterministic test fetcher for the failure-isolation properties: the
fetch of `pj_id` raises with message `emsg pj_id` exactly when
`bad pj_id`, and otherwise yields a page whose amount element is present
with text `am pj_id` and whose count element is `cnt pj_id`. -/
def mkNet (bad : String → Bool) (emsg am : String → String)
    (cnt : String → Option String) : String → Except String Page :=
  fun pj_id =>
    if bad pj_id then Except.error (emsg pj_id)
    else Except.ok ⟨some (am pj_id), cnt pj_id⟩

/-! ## Helper lemmas -/

/-- Padding a row with empty cells does not change any guarded cell
access. -/
theorem getCell_append_pad (row_data : List String) (k j : Nat) :
    getCell (row_data ++ List.replicate k "") j = getCell row_data j := by
  unfold getCell
  rw [List.getD_eq_getElem?_getD, List.getD_eq_getElem?_getD]
  by_cases h : j < row_data.length
  · rw [List.getElem?_append_left h]
  · rw [List.getElem?_append_right (le_of_not_lt h),
      List.getElem?_eq_none (le_of_not_lt h), List.getElem?_replicate]
    split <;> rfl

/-- Reading past the end of a row yields the empty cell. -/
theorem getCell_past_length (row_data : List String) (j : Nat)
    (h : row_data.length ≤ j) : getCell row_data j = "" := by
  unfold getCell
  rw [List.getD_eq_getElem?_getD, List.getElem?_eq_none h]
  rfl

/-! ## C2 -/

/-- C2: `should_fetch_project_data(row, target_date)` returns True iff the
project-id cell is non-empty, the end-date cell is non-empty, the end date
parses under the fixed `%Y/%m/%d` format, and the parsed end date is on or
after the target date; a row whose end date equals the target date is
fetch-eligible while a row whose end date is the previous day is not. -/
theorem C2_should_fetch_characterization :
    (∀ (row_data : List String) (target_date : Date),
        should_fetch_project_data row_data target_date = true ↔
          getCell row_data 0 ≠ "" ∧ getCell row_data 5 ≠ "" ∧
            ∃ d, strptimeYMD (getCell row_data 5) = some d ∧ dateLe target_date d = true)
    ∧ should_fetch_project_data ["p", "", "", "", "", "2024/06/01"] ⟨2024, 6, 1⟩ = true
    ∧ should_fetch_project_data ["p", "", "", "", "", "2024/05/31"] ⟨2024, 6, 1⟩ = false := by
  refine ⟨?_, by decide, by decide⟩
  intro row t
  by_cases hid : getCell row 0 = ""
  · simp [should_fetch_project_data, hid]
  · by_cases hed : getCell row 5 = ""
    · simp [should_fetch_project_data, hid, hed]
    · cases hp : strptimeYMD (getCell row 5) with
      | none => simp [should_fetch_project_data, is_valid_date_string, hid, hed, hp]
      | some d => simp [should_fetch_project_data, is_valid_date_string, hid, hed, hp]

/-! ## C5 -/

/-- C5: `AdaptiveRateLimiter.wait` computes its delay as
`min(base_delay * 1.5 ** (error_rate * 10), max_delay)` with
`error_rate = error_count / max(1, error_count + success_count)`; with no
recorded requests the delay is `base_delay`, and after 10 consecutive
`record_error` calls with no successes the delay is clamped at
`max_delay`, at the limiter's constructor defaults `(0.5, 5.0)` as well as
at the global limiter's parameters `(0.5, 3.0)`. -/
theorem C5_wait_delay :
    (∀ (base_delay max_delay : ℝ) (s : RateLimiterState),
        dynamicDelay base_delay max_delay s =
          min (base_delay * (1.5 : ℝ) ^ ((errorRate s * 10 : ℚ) : ℝ)) max_delay)
    ∧ errorRate ⟨0, 0⟩ = 0
    ∧ dynamicDelay 0.5 5 ⟨0, 0⟩ = 0.5
    ∧ RateLimiterState.record_error^[10] ⟨0, 0⟩ = ⟨10, 0⟩
    ∧ dynamicDelay 0.5 5 ⟨10, 0⟩ = 5
    ∧ dynamicDelay 0.5 3 ⟨10, 0⟩ = 3 := by
  have h0 : errorRate ⟨0, 0⟩ = 0 := by
    simp [errorRate]
  have h10 : errorRate ⟨10, 0⟩ = 1 := by
    norm_num [errorRate]
  have hpow : (1.5 : ℝ) ^ (((1 : ℚ) * 10 : ℚ) : ℝ) = 57.6650390625 := by
    rw [show (((1 : ℚ) * 10 : ℚ) : ℝ) = ((10 : ℕ) : ℝ) by norm_num, Real.rpow_natCast]
    norm_num
  refine ⟨fun b M s => rfl, h0, ?_, by decide, ?_, ?_⟩
  · rw [dynamicDelay, h0]
    norm_num [Real.rpow_zero]
  · rw [dynamicDelay, h10, hpow]
    norm_num
  · rw [dynamicDelay, h10, hpow]
    norm_num

/-! ## C6 -/

/-- C6: `record_success` increments `success_count` and decrements
`error_count` by exactly 1 on every 5th cumulative success, never below 0;
`record_error` increments `error_count` unconditionally; from a fresh
limiter, 10 `record_error` calls followed by 5 `record_success` calls
leave `error_count` at exactly 9. -/
theorem C6_counter_updates :
    (∀ s : RateLimiterState, s.record_success.success_count = s.success_count + 1)
    ∧ (∀ s : RateLimiterState, s.record_success.error_count =
        if (s.success_count + 1) % 5 = 0 then s.error_count - 1 else s.error_count)
    ∧ (∀ s : RateLimiterState,
        s.record_error.error_count = s.error_count + 1
          ∧ s.record_error.success_count = s.success_count)
    ∧ (RateLimiterState.record_success^[5]
          (RateLimiterState.record_error^[10] ⟨0, 0⟩)).error_count = 9 := by
  refine ⟨?_, ?_, fun s => ⟨rfl, rfl⟩, by decide⟩
  · intro s
    by_cases h : (s.success_count + 1) % 5 = 0 ∧ s.error_count > 0
    · simp [RateLimiterState.record_success, h]
    · simp [RateLimiterState.record_success, h]
  · intro s
    by_cases h5 : (s.success_count + 1) % 5 = 0
    · by_cases he : s.error_count > 0
      · simp [RateLimiterState.record_success, h5, he]
      · have h0 : s.error_count = 0 := by omega
        simp [RateLimiterState.record_success, h5, he, h0]
    · simp [RateLimiterState.record_success, h5]

/-! ## C7 -/

/-- C7: when the HTTP fetch succeeds but an expected element (pledge
amount or backer count) is absent from the page, `get_campfire_data`
returns normally with the per-field unavailable sentinel `取得不可` in
that field's place instead of raising a fetch error. -/
theorem C7_missing_field_sentinel :
    (∀ (pj_id : String) (use_rate_limit : Bool) (countElem : Option String),
        (get_campfire_data pj_id use_rate_limit
            (fun _ => Except.ok ⟨none, countElem⟩)).2
          = Except.ok ("取得不可", scrapeField countElem))
    ∧ (∀ (pj_id : String) (use_rate_limit : Bool) (amountElem : Option String),
        (get_campfire_data pj_id use_rate_limit
            (fun _ => Except.ok ⟨amountElem, none⟩)).2
          = Except.ok (scrapeField amountElem, "取得不可")) :=
  ⟨fun _ _ _ => rfl, fun _ _ _ => rfl⟩

/-! ## C3 -/

/-- C3 counterexample: with `use_rate_limit = False` the call performs the
bare HTTP request; the limiter's `wait` is never invoked, contradicting
the claim that `wait` is called on every `get_campfire_data` call even
when the caller disables rate limiting. -/
theorem C3_counterexample :
    (get_campfire_data "12345" false
        (fun _ => Except.ok ⟨some "¥100", some "3人"⟩)).1 = [LimiterEvent.httpGet]
    ∧ LimiterEvent.wait ∉ (get_campfire_data "12345" false
        (fun _ => Except.ok ⟨some "¥100", some "3人"⟩)).1 :=
  ⟨rfl, by decide⟩

/-- C3 amended: `get_campfire_data` interacts with the rate limiter iff
`use_rate_limit` is true — with the flag on, every call is `wait`, then
the request, then `record_success` on success / `record_error` on failure;
with the flag off, the call performs only the request and never touches
the limiter. -/
theorem C3_limiter_trace :
    (∀ (pj_id : String) (net : String → Except String Page),
        (get_campfire_data pj_id true net).1 =
          [LimiterEvent.wait, LimiterEvent.httpGet,
            match net pj_id with
            | Except.ok _ => LimiterEvent.recordSuccess
            | Except.error _ => LimiterEvent.recordError])
    ∧ (∀ (pj_id : String) (net : String → Except String Page),
        (get_campfire_data pj_id false net).1 = [LimiterEvent.httpGet]) := by
  constructor <;> intro pj net <;> cases h : net pj <;> simp [get_campfire_data, h]

/-! ## C9 -/

/-- C9: ragged rows shorter than six cells behave exactly as if padded
with empty strings — both the pre-filter and the Phase-1 skip labelling
are invariant under padding, and every access past the row's end yields
the empty cell (the embedding is total, mirroring the source's
`row[i] if len(row) > i else ""` guards: a short row is never an
error). -/
theorem C9_short_rows_as_empty :
    ∀ (row_data : List String) (target_date : Date) (k i : Nat),
      should_fetch_project_data (row_data ++ List.replicate k "") target_date
          = should_fetch_project_data row_data target_date
      ∧ skipRowResult i (row_data ++ List.replicate k "")
          = skipRowResult i row_data
      ∧ (∀ j, row_data.length ≤ j → getCell row_data j = "") := by
  intro row t k i
  refine ⟨?_, ?_, fun j hj => getCell_past_length row j hj⟩
  · simp only [should_fetch_project_data, getCell_append_pad]
  · simp only [skipRowResult, getCell_append_pad]

/-! ## Batch-fetch helper lemmas -/

/-- Value a worker produces for one project id: the fetched data, or the
error tuple built at the worker boundary when the fetch raises. -/
def worker_result (net : String → Except String Page) (pj_id : String) :
    String × String :=
  match (get_campfire_data pj_id true net).2 with
  | Except.ok data => data
  | Except.error e => ("エラー: " ++ e, "エラー")

theorem fetch_single_project_eq (net : String → Except String Page) (pj_id : String) :
    fetch_single_project net pj_id = (pj_id, worker_result net pj_id) := by
  unfold fetch_single_project worker_result
  cases (get_campfire_data pj_id true net).2 <;> rfl

theorem filterMap_getElem_range {α : Type _} (l : List α) :
    (List.range l.length).filterMap (fun i => l[i]?) = l := by
  induction l using List.reverseRecOn with
  | nil => rfl
  | append_singleton l a ih =>
      rw [List.length_append, List.length_singleton, List.range_succ, List.filterMap_append]
      have h1 : (List.range l.length).filterMap (fun i => (l ++ [a])[i]?) =
          (List.range l.length).filterMap (fun i => l[i]?) := by
        apply List.filterMap_congr
        intro i hi
        rw [List.getElem?_append_left (List.mem_range.1 hi)]
      have h2 : List.filterMap (fun i => (l ++ [a])[i]?) [l.length] = [a] := by
        simp
      rw [h1, h2, ih]

/-- A schedule that is a permutation of the submission indices delivers a
permutation of the submitted tasks' results. -/
theorem applySchedule_perm {α : Type _} (sched : List Nat) (tasks : List α)
    (hsched : sched.Perm (List.range tasks.length)) :
    (applySchedule sched tasks).Perm tasks := by
  have h := List.Perm.filterMap (fun i => tasks[i]?) hsched
  rw [filterMap_getElem_range] at h
  exact h

/-- When every pair of the collected results is `(key, g key)`,
`dict(results).get(k, d)` is `g k` for any key present in the results. -/
theorem lastAssoc_of_mem {β : Type _} (R : List (String × β)) (g : String → β)
    (k : String) (d : β) (hall : ∀ p ∈ R, p.2 = g p.1) (hmem : ∃ v, (k, v) ∈ R) :
    lastAssoc R k d = g k := by
  obtain ⟨v, hv⟩ := hmem
  have hsome : (R.reverse.find? (fun p => p.1 == k)).isSome = true := by
    apply List.find?_isSome.2
    exact ⟨(k, v), List.mem_reverse.2 hv, by simp⟩
  obtain ⟨q, hq⟩ := Option.isSome_iff_exists.1 hsome
  have hqk : q.1 = k := by
    have := List.find?_some hq
    simpa using this
  have hqR : q ∈ R := List.mem_reverse.1 (List.mem_of_find?_eq_some hq)
  unfold lastAssoc
  rw [hq]
  simp [hall q hqR, hqk]

/-- Completion-order irrelevance and per-row isolation of the batch fetch:
over any schedule that completes every submitted future exactly once, the
batch result is the input-order list of per-project worker results, each
depending only on its own project's fetch. -/
theorem batch_eq_map (net : String → Except String Page) (sched : List Nat)
    (project_ids : List String)
    (hsched : sched.Perm (List.range project_ids.length)) :
    get_campfire_data_batch net sched project_ids
      = project_ids.map (fun pj_id => (pj_id, worker_result net pj_id)) := by
  unfold get_campfire_data_batch
  have htasks : project_ids.map (fetch_single_project net)
      = project_ids.map (fun pj => (pj, worker_result net pj)) :=
    List.map_congr_left (fun pj _ => fetch_single_project_eq net pj)
  have hperm : (applySchedule sched (project_ids.map (fetch_single_project net))).Perm
      (project_ids.map (fun pj => (pj, worker_result net pj))) := by
    have h := applySchedule_perm sched (project_ids.map (fetch_single_project net))
      (by simpa using hsched)
    exact h.trans (htasks ▸ List.Perm.refl _)
  apply List.map_congr_left
  intro pj hpj
  have heq : lastAssoc (applySchedule sched (project_ids.map (fetch_single_project net)))
      pj ("取得不可", "取得不可") = worker_result net pj := by
    apply lastAssoc_of_mem _ (worker_result net) pj _ ?_ ?_
    · intro p hp
      have hp' := hperm.mem_iff.1 hp
      obtain ⟨a, _, rfl⟩ := List.mem_map.1 hp'
      rfl
    · exact ⟨worker_result net pj, hperm.mem_iff.2 (List.mem_map.2 ⟨pj, hpj, rfl⟩)⟩
  rw [heq]

/-! ## C10 -/

/-- C10: `get_campfire_data_batch` returns one result per input id, the
i-th result's first component is the i-th input id (input order restored
whatever the completion order), and duplicate input ids all receive the
same result value. -/
theorem C10_batch_shape :
    (∀ (net : String → Except String Page) (sched : List Nat) (project_ids : List String),
        (get_campfire_data_batch net sched project_ids).length = project_ids.length)
    ∧ (∀ (net : String → Except String Page) (sched : List Nat) (project_ids : List String),
        (get_campfire_data_batch net sched project_ids).map Prod.fst = project_ids)
    ∧ (∀ (net : String → Except String Page) (sched : List Nat) (project_ids : List String)
        (p q : String × (String × String)),
        p ∈ get_campfire_data_batch net sched project_ids →
        q ∈ get_campfire_data_batch net sched project_ids →
        p.1 = q.1 → p.2 = q.2) := by
  refine ⟨fun net sched ids => by simp [get_campfire_data_batch],
    fun net sched ids => by simp [get_campfire_data_batch, Function.comp_def],
    ?_⟩
  intro net sched ids p q hp hq h1
  simp only [get_campfire_data_batch, List.mem_map] at hp hq
  obtain ⟨a, -, rfl⟩ := hp
  obtain ⟨b, -, rfl⟩ := hq
  simp only at h1
  rw [h1]

/-! ## C8 -/

/-- C8: an exception inside one worker's fetch task is caught at the
worker boundary and converted into an error result carried in that row's
own tuple; the batch result is exactly the input-order list of per-project
worker results, so one row's failure never propagates out of the pool,
never aborts the remaining rows, and every other row still yields its own
terminal result determined by its own fetch alone. -/
theorem C8_worker_failure_isolation (net : String → Except String Page)
    (sched : List Nat) (project_ids : List String)
    (hsched : sched.Perm (List.range project_ids.length)) :
    get_campfire_data_batch net sched project_ids
      = project_ids.map (fun pj_id => (pj_id, worker_result net pj_id))
    ∧ (∀ (pj_id e : String), net pj_id = Except.error e →
        worker_result net pj_id =
          ("エラー: " ++ ("プロジェクト " ++ pj_id ++ " のデータ取得でネットワークエラー: " ++ e),
            "エラー")) := by
  refine ⟨batch_eq_map net sched project_ids hsched, ?_⟩
  intro pj e he
  simp [worker_result, get_campfire_data, he]

/-- C8 witness: a two-project batch in reversed completion order, where
the first project's fetch raises — the failed row carries the error tuple,
the other row its fetched data, in input order. -/
theorem C8_witness :
    get_campfire_data_batch
        (mkNet (fun pj_id => pj_id == "a") (fun _ => "boom") (fun _ => "¥1,234")
          (fun _ => some "567人"))
        [1, 0] ["a", "b"]
      = [("a", ("エラー: プロジェクト a のデータ取得でネットワークエラー: boom", "エラー")),
         ("b", ("1234", "567"))] := by
  rw [(C8_worker_failure_isolation
    (mkNet (fun pj_id => pj_id == "a") (fun _ => "boom") (fun _ => "¥1,234")
      (fun _ => some "567人"))
    [1, 0] ["a", "b"] (by decide)).1]
  decide

/-! ## Harvester helper lemmas -/

theorem skipRowResult_fst (i : Nat) (row_data : List String) :
    (skipRowResult i row_data).1 = i := by
  unfold skipRowResult
  by_cases h1 : getCell row_data 0 = "" <;>
    by_cases h2 : getCell row_data 5 = "" <;>
      by_cases h3 : is_valid_date_string (getCell row_data 5) <;>
        simp [h1, h2, h3]

theorem mergeFetchRow_fst (x : (Nat × String) × (String × (String × String))) :
    (mergeFetchRow x).1 = x.1.1 := by
  obtain ⟨⟨i, pj⟩, ⟨a, b, c⟩⟩ := x
  simp only [mergeFetchRow]
  split <;> rfl

theorem phase1_cons (row_data : List String) (rest : List (List String)) (i : Nat)
    (t : Date) :
    phase1 (row_data :: rest) i t =
      if should_fetch_project_data row_data t then
        ((phase1 rest (i + 1) t).1, (i, getCell row_data 0) :: (phase1 rest (i + 1) t).2)
      else
        (skipRowResult i row_data :: (phase1 rest (i + 1) t).1,
          (phase1 rest (i + 1) t).2) := by
  cases h : phase1 rest (i + 1) t with
  | mk rs fs => simp only [phase1, h]

/-- Phase 1 distributes the enumerated row indices between the skip
results and the fetch targets: together they are exactly the index range,
once each. -/
theorem phase1_fst_perm (rows : List (List String)) (t : Date) :
    ∀ i : Nat,
      ((phase1 rows i t).1.map (fun r => r.1)
          ++ (phase1 rows i t).2.map Prod.fst).Perm
        (List.range' i rows.length) := by
  induction rows with
  | nil => intro i; simp [phase1]
  | cons row rest ih =>
      intro i
      rw [List.length_cons, List.range'_succ, phase1_cons]
      by_cases h : should_fetch_project_data row t = true
      · rw [if_pos h]
        simp only [List.map_cons]
        exact List.perm_middle.trans ((ih (i + 1)).cons i)
      · rw [if_neg h]
        simp only [List.map_cons, skipRowResult_fst, List.cons_append]
        exact (ih (i + 1)).cons i

theorem rowLe_trans :
    ∀ a b c : RowResult, rowLe a b = true → rowLe b c = true → rowLe a c = true := by
  intro a b c h1 h2
  simp only [rowLe, Nat.ble_eq] at *
  omega

theorem rowLe_total : ∀ a b : RowResult, (rowLe a b || rowLe b a) = true := by
  intro a b
  simp only [rowLe, Bool.or_eq_true, Nat.ble_eq]
  omega

/-! ## C1 -/

/-- C1: for every input row list and start row — and every completion
order of the concurrent fetches — the fast harvester returns exactly one
result tuple per input row, whose row indices are exactly
`start_row .. start_row + len(rows) - 1`, each occurring once, sorted
ascending. -/
theorem C1_fast_row_indices (net : String → Except String Page) (sched : List Nat)
    (rows : List (List String)) (start_row : Nat) (target_date : Date) :
    (process_production_project_data_fast net sched rows start_row target_date).map
        (fun r => r.1)
      = List.range' start_row rows.length := by
  cases hp : phase1 rows start_row target_date with
  | mk rs ft =>
      unfold process_production_project_data_fast
      rw [hp]
      set B := get_campfire_data_batch_with_progress net sched (ft.map Prod.snd) with hB
      have hBlen : B.length = ft.length := by
        simp [hB, get_campfire_data_batch_with_progress, get_campfire_data_batch]
      set merged := (ft.zip B).map mergeFetchRow with hm
      have hmfst : merged.map (fun r => r.1) = ft.map Prod.fst := by
        rw [hm, List.map_map]
        have hcomp : ((fun r : RowResult => r.1) ∘ mergeFetchRow)
            = (fun y : (Nat × String) => y.1) ∘ Prod.fst := by
          funext x
          exact mergeFetchRow_fst x
        rw [hcomp, ← List.map_map, List.map_fst_zip ft B (le_of_eq hBlen.symm)]
      have hperm : (((rs ++ merged).mergeSort rowLe).map (fun r => r.1)).Perm
          (List.range' start_row rows.length) := by
        have h1 := (List.mergeSort_perm (rs ++ merged) rowLe).map (fun r : RowResult => r.1)
        rw [List.map_append, hmfst] at h1
        have h2 := phase1_fst_perm rows target_date start_row
        rw [hp] at h2
        exact h1.trans h2
      have hsorted : List.Sorted (· ≤ ·)
          (((rs ++ merged).mergeSort rowLe).map (fun r => r.1)) := by
        have hs := @List.sorted_mergeSort RowResult rowLe rowLe_trans rowLe_total (rs ++ merged)
        exact List.Pairwise.map (fun r : RowResult => r.1)
          (fun a b hab => by simpa only [rowLe, Nat.ble_eq] using hab) hs
      have hsorted' : List.Sorted (· ≤ ·) (List.range' start_row rows.length) :=
        (List.pairwise_lt_range' start_row rows.length).imp le_of_lt
      exact List.eq_of_perm_of_sorted hperm hsorted hsorted'

/-! ## Failure-classification helper lemmas -/

theorem zip_self_map {α β : Type _} (l : List α) (g : α → β) :
    l.zip (l.map g) = l.map (fun a => (a, g a)) := by
  induction l with
  | nil => rfl
  | cons a l ih => simp [ih]

theorem pyContains_prefix (s t : String) : pyContains s (s ++ t) = true := by
  simp only [pyContains, String.data_append]
  exact decide_eq_true (List.IsPrefix.isInfix (List.prefix_append s.data t.data))

theorem pyContains_err_cleanDigits (t : String) :
    pyContains "エラー" (cleanDigits t) = false := by
  apply decide_eq_false
  intro hinf
  have hmem : 'エ' ∈ (cleanDigits t).data :=
    List.IsInfix.mem (by decide : 'エ' ∈ "エラー".data) hinf
  have hdig : Char.isDigit 'エ' = true := (List.mem_filter.1 hmem).2
  exact absurd hdig (by decide)

theorem cleanDigits_beq_sentinel (t : String) :
    (cleanDigits t == "取得不可") = false := by
  apply beq_eq_false_iff_ne.2
  intro h
  have hd : t.data.filter Char.isDigit = "取得不可".data := congrArg String.data h
  have hmem : '取' ∈ t.data.filter Char.isDigit := by
    rw [hd]; decide
  exact absurd ((List.mem_filter.1 hmem).2) (by decide)

/-- Worker result under the deterministic test fetcher: the error tuple
for the failing subset, the scraped fields otherwise. -/
theorem worker_result_mkNet (bad : String → Bool) (emsg am : String → String)
    (cnt : String → Option String) (pj_id : String) :
    worker_result (mkNet bad emsg am cnt) pj_id =
      if bad pj_id then
        ("エラー: " ++ ("プロジェクト " ++ pj_id ++ " のデータ取得でネットワークエラー: " ++ emsg pj_id),
          "エラー")
      else (cleanDigits (am pj_id), scrapeField (cnt pj_id)) := by
  by_cases h : bad pj_id = true <;>
    simp [worker_result, mkNet, get_campfire_data, h, scrapeField]

theorem mergeFetchRow_error_tuple (i : Nat) (pj_id x msg : String) :
    mergeFetchRow ((i, pj_id), (x, ("エラー: " ++ msg, "エラー")))
      = (i, pj_id, "-", "-", "取得エラー") := by
  have hlit : ("エラー: " : String) = "エラー" ++ ": " := by decide
  have hsplit : ("エラー: " ++ msg) = ("エラー" ++ (": " ++ msg)) := by
    rw [hlit, String.append_assoc]
  simp only [mergeFetchRow]
  rw [hsplit, pyContains_prefix]
  simp

theorem mergeFetchRow_ok_tuple (i : Nat) (pj_id x t c : String) :
    mergeFetchRow ((i, pj_id), (x, (cleanDigits t, c)))
      = (i, pj_id, cleanDigits t, c, "取得OK") := by
  simp only [mergeFetchRow, pyContains_err_cleanDigits, cleanDigits_beq_sentinel,
    Bool.or_self, Bool.false_eq_true, if_false]

/-! ## C4 -/

/-- C4: with a fetcher that raises exactly on a deterministic subset of
project ids (`bad`), a concurrent harvest tags exactly the eligible rows
of that subset `取得エラー` and every other fetched row `取得OK` with its
scraped values; the total output length equals the number of input rows
(eligible plus pre-filtered) for every completion order — no row lost, no
duplicate, one row's failure never aborting the others. -/
theorem C4_failure_subset (bad : String → Bool) (emsg am : String → String)
    (cnt : String → Option String) (sched : List Nat) (rows : List (List String))
    (start_row : Nat) (target_date : Date)
    (hsched : sched.Perm (List.range (phase1 rows start_row target_date).2.length)) :
    (process_production_project_data_fast (mkNet bad emsg am cnt) sched rows
        start_row target_date).length = rows.length
    ∧ (process_production_project_data_fast (mkNet bad emsg am cnt) sched rows
        start_row target_date).Perm
        ((phase1 rows start_row target_date).1
          ++ (phase1 rows start_row target_date).2.map (fun ft =>
              if bad ft.2 then ((ft.1, ft.2, "-", "-", "取得エラー") : RowResult)
              else (ft.1, ft.2, cleanDigits (am ft.2), scrapeField (cnt ft.2), "取得OK")))
    ∧ ∀ ft ∈ (phase1 rows start_row target_date).2,
        (if bad ft.2 then ((ft.1, ft.2, "-", "-", "取得エラー") : RowResult)
         else (ft.1, ft.2, cleanDigits (am ft.2), scrapeField (cnt ft.2), "取得OK"))
          ∈ process_production_project_data_fast (mkNet bad emsg am cnt) sched rows
              start_row target_date := by
  cases hp : phase1 rows start_row target_date with
  | mk rs ftl =>
      rw [hp] at hsched
      unfold process_production_project_data_fast
      rw [hp]
      dsimp only
      set g : String → String × (String × String) :=
        fun pj_id => (pj_id, worker_result (mkNet bad emsg am cnt) pj_id) with hg
      have hbatch : get_campfire_data_batch_with_progress (mkNet bad emsg am cnt) sched
          (ftl.map Prod.snd) = ftl.map (g ∘ Prod.snd) := by
        unfold get_campfire_data_batch_with_progress
        rw [batch_eq_map _ sched _ (by simpa using hsched), List.map_map]
      rw [hbatch, zip_self_map ftl (g ∘ Prod.snd), List.map_map]
      have hFval : ∀ ft : Nat × String,
          (mergeFetchRow ∘ fun a => (a, (g ∘ Prod.snd) a)) ft =
            (if bad ft.2 then ((ft.1, ft.2, "-", "-", "取得エラー") : RowResult)
             else (ft.1, ft.2, cleanDigits (am ft.2), scrapeField (cnt ft.2), "取得OK")) := by
        intro ft
        simp only [Function.comp_def, hg, worker_result_mkNet]
        by_cases h : bad ft.2 = true
        · rw [if_pos h, if_pos h]
          exact mergeFetchRow_error_tuple ft.1 ft.2 ft.2 _
        · rw [if_neg h, if_neg h]
          exact mergeFetchRow_ok_tuple ft.1 ft.2 ft.2 _ _
      have hlen : rs.length + ftl.length = rows.length := by
        have h2 := phase1_fst_perm rows target_date start_row
        rw [hp] at h2
        simpa using h2.length_eq
      have hmapeq : ftl.map (mergeFetchRow ∘ fun a => (a, (g ∘ Prod.snd) a))
          = ftl.map (fun ft =>
              if bad ft.2 then ((ft.1, ft.2, "-", "-", "取得エラー") : RowResult)
              else (ft.1, ft.2, cleanDigits (am ft.2), scrapeField (cnt ft.2), "取得OK")) :=
        List.map_congr_left (fun ft _ => hFval ft)
      refine ⟨?_, ?_, ?_⟩
      · rw [(List.mergeSort_perm (rs ++ ftl.map (mergeFetchRow ∘ fun a =>
          (a, (g ∘ Prod.snd) a))) rowLe).length_eq]
        simp [hlen]
      · exact (List.mergeSort_perm _ rowLe).trans (hmapeq ▸ List.Perm.refl _)
      · intro ft hft
        apply ((List.mergeSort_perm _ rowLe).mem_iff).2
        apply List.mem_append_right
        rw [← hFval ft]
        exact List.mem_map.2 ⟨ft, hft, rfl⟩

/-- C4 witness: a two-row harvest, completion order reversed, where the
second project's fetch raises — the healthy row is tagged `取得OK` with
its scraped amount and count. -/
theorem C4_witness :
    (2, "good", "1234", "567", "取得OK")
      ∈ process_production_project_data_fast
          (mkNet (fun pj_id => pj_id == "bad") (fun _ => "boom") (fun _ => "¥1,234")
            (fun _ => some "567人"))
          [1, 0]
          [["good", "", "", "", "", "2024/06/01"], ["bad", "", "", "", "", "2024/06/01"]]
          2 ⟨2024, 6, 1⟩ := by
  have h := (C4_failure_subset (fun pj_id => pj_id == "bad") (fun _ => "boom")
    (fun _ => "¥1,234") (fun _ => some "567人") [1, 0]
    [["good", "", "", "", "", "2024/06/01"], ["bad", "", "", "", "", "2024/06/01"]]
    2 ⟨2024, 6, 1⟩ (by decide)).2.2 (2, "good") (by decide)
  rw [if_neg (by decide)] at h
  exact h

end MachiYa
